import Mathlib

/-!
Verification of the Open-CS-408 question-bank pipeline
(`questions/generate_pdf.py` and `questions/manager.py`).

The Python sources are shallowly embedded: SQLite rows become a `Question`
structure, the record store becomes a `List Question`, the filesystem and
clock become an explicit `Env`, and every fallible lookup (Python `KeyError`,
unreadable files) returns an `Option`.
-/

set_option autoImplicit false

namespace OpenCS408

/-- One row of the `questions` table (schema in `manager.py`,
`DatabaseManager.init_database`).  Nullable columns are `Option String`;
`NOT NULL` columns are `String`. -/
structure Question where
  id : String
  subject_code : String
  chapter_num : String
  question_type : String
  status : String
  question_text : String
  option_a : Option String
  option_b : Option String
  option_c : Option String
  option_d : Option String
  correct_answer : String
  explanation : Option String
  knowledge : Option String
  notes : Option String
  created_date : String
  last_modified : String
  image_path : Option String
deriving Repr, DecidableEq, Inhabited

/-- The ambient environment of a run: which file paths resolve to a loadable
image, today's date string, whether the font file exists, the rows of the
store, whether the intermediate artifact can be re-opened by the bookmark
stage, its page count, and `pathlib.Path.suffix`. -/
structure Env where
  resolves : String → Bool
  today : String
  fontExists : Bool
  rows : List Question
  artifactReadable : Bool
  numPages : Nat
  suffix : String → String

/-- Python truthiness of an optional TEXT column: `None` and `""` are falsy. -/
def truthy : Option String → Bool
  | none => false
  | some s => !(s = "")

/-- `SUBJECTS` from `generate_pdf.py` / `manager.py`: subject code, display
name, and the ordered chapter mapping (number, name). -/
def SUBJECTS : List (String × String × List (String × String)) :=
  [("DS", ("数据结构",
     [("01", "基本概念"), ("02", "线性表"), ("03", "栈、队列和数组"),
      ("04", "树与二叉树"), ("05", "图"), ("06", "查找"), ("07", "排序")])),
   ("CO", ("计算机组成原理",
     [("01", "计算机系统概述"), ("02", "数据的表示和运算"), ("03", "存储器层次结构"),
      ("04", "指令系统"), ("05", "中央处理器"), ("06", "总线和输入输出系统")])),
   ("OS", ("操作系统",
     [("01", "操作系统概述"), ("02", "进程管理"), ("03", "内存管理"),
      ("04", "文件管理"), ("05", "输入输出管理")])),
   ("CN", ("计算机网络",
     [("01", "计算机网络体系结构"), ("02", "物理层"), ("03", "数据链路层"),
      ("04", "网络层"), ("05", "传输层"), ("06", "应用层")]))]

/-- `SUBJECTS[code]`, as an `Option` (Python raises `KeyError` when absent). -/
def subjectInfo (code : String) : Option (String × List (String × String)) :=
  (SUBJECTS.find? (fun s => s.1 = code)).map (fun s => s.2)

/-- `SUBJECTS[code]["name"]`. -/
def subjectName (code : String) : Option String :=
  (subjectInfo code).map (fun s => s.1)

/-- `SUBJECTS[code]["chapters"][ch]`. -/
def chapterName (code ch : String) : Option String :=
  (subjectInfo code).bind (fun s => (s.2.find? (fun c => c.1 = ch)).map (fun c => c.2))

/-- `SUBJECT_ORDER = list(SUBJECTS.keys())`. -/
def SUBJECT_ORDER : List String := SUBJECTS.map (fun s => s.1)

/- ===== String ordering =====

SQLite's default BINARY collation orders TEXT values by `memcmp` over their
UTF-8 bytes, which coincides with lexicographic order on Unicode codepoints;
Python compares `str` values the same way.  We embed that order directly on
the character lists. -/

/-- Three-way lexicographic comparison on character lists by codepoint. -/
def lexCmp : List Char → List Char → Ordering
  | [], [] => .eq
  | [], _ :: _ => .lt
  | _ :: _, [] => .gt
  | a :: as, b :: bs =>
    if a.toNat < b.toNat then .lt
    else if b.toNat < a.toNat then .gt
    else lexCmp as bs

/-- Strict string order (SQLite `ORDER BY` / Python `<`). -/
def strLt (a b : String) : Bool := lexCmp a.data b.data = Ordering.lt

/-- Reflexive string order (Python `<=`, used for sort keys). -/
def strLe (a b : String) : Bool := !(lexCmp a.data b.data = Ordering.gt)

/- ===== Identifier assigner (`manager.py`, `generate_question_id`) ===== -/

/-- Semantics of `re.match(rf"{subject_code}{chapter_num}(\d{\x7b6\x7d})", last_id)`
followed by `int(match.group(1))`: the id must start with the concatenated
pair, followed by at least six digits; the value is that of the first six
digits (the pattern is not end-anchored). -/
def parseSeq (pre s : String) : Option Nat :=
  let p := pre.data
  let cs := s.data
  if cs.take p.length = p then
    let ds := (cs.drop p.length).take 6
    if ds.length = 6 ∧ ds.all (fun c => c.isDigit) then
      some (ds.foldl (fun n c => n * 10 + (c.toNat - 48)) 0)
    else none
  else none

/-- `SELECT id ... ORDER BY id DESC LIMIT 1`: the lexicographically greatest
identifier of the queried set (SQLite BINARY collation; on these ids this is
Lean's `String` order). -/
def maxId (ids : List String) : Option String :=
  ids.foldl
    (fun acc s =>
      match acc with
      | none => some s
      | some m => if strLt m s then some s else some m)
    none

/-- Python `f"{n:06d}"` for a natural number: left-pad the decimal form with
zeroes to width 6. -/
def pad6 (n : Nat) : String :=
  let s := toString n
  String.mk (List.replicate (6 - s.length) '0') ++ s

/-- `manager.generate_question_id`, with the rows the SQL query would return
for the `(subject_code, chapter_num)` pair supplied as the id list
`existing`.  Only the lexicographically greatest id is consulted; if it does
not match the prefix-plus-six-digits pattern the sequence restarts at 1. -/
def generate_question_id (subject_code chapter_num : String)
    (existing : List String) : String :=
  let pre := subject_code ++ chapter_num
  let newNum :=
    match maxId existing with
    | none => 1
    | some last =>
      match parseSeq pre last with
      | some n => n + 1
      | none => 1
  pre ++ pad6 newNum

/-- The assigner as the specification words it (§4.1): `seq` is one plus the
maximum over the sequence values of ALL existing identifiers that parse as
prefix + 6 digits, malformed identifiers being skipped, or 1 when no
identifier parses.  Written from the spec, for comparison with
`generate_question_id`. -/
def spec_generate_question_id (subject_code chapter_num : String)
    (existing : List String) : String :=
  let pre := subject_code ++ chapter_num
  let seqs := existing.filterMap (parseSeq pre)
  let newNum :=
    match seqs.max? with
    | some m => m + 1
    | none => 1
  pre ++ pad6 newNum

/- ===== Store operations (`manager.py`) ===== -/

/-- The row transformation of `manager.update_question`'s UPDATE statement:
rows whose `id` equals the payload's keep their `id` and `created_date`
(absent from the SET list), receive today's date as `last_modified`, and take
every other column from the payload; other rows are untouched. -/
def updateRow (qd : Question) (today : String) (r : Question) : Question :=
  if r.id = qd.id then
    { r with
      subject_code := qd.subject_code, chapter_num := qd.chapter_num,
      question_type := qd.question_type, status := qd.status,
      question_text := qd.question_text,
      option_a := qd.option_a, option_b := qd.option_b,
      option_c := qd.option_c, option_d := qd.option_d,
      correct_answer := qd.correct_answer, explanation := qd.explanation,
      knowledge := qd.knowledge, notes := qd.notes,
      last_modified := today, image_path := qd.image_path }
  else r

/-- `manager.update_question` over the whole table
(`UPDATE questions SET ... WHERE id = ?`). -/
def update_question (store : List Question) (qd : Question) (today : String) :
    List Question :=
  store.map (updateRow qd today)

/-- The record inserted by `manager.duplicate_question`: the source record
with a freshly generated id, both dates set to today, status forced to
`draft`, and — when the source image resolves — the image path rewritten to
`assets/images/<newid><ext>`. -/
def dupRecord (env : Env) (store : List Question) (q : Question)
    (today : String) : Question :=
  let existing :=
    (store.filter (fun r =>
      r.subject_code = q.subject_code ∧ r.chapter_num = q.chapter_num)).map
      (fun r => r.id)
  let newId := generate_question_id q.subject_code q.chapter_num existing
  let base := { q with
    id := newId, created_date := today, last_modified := today,
    status := "draft" }
  match q.image_path with
  | none => base
  | some p =>
    if p ≠ "" ∧ env.resolves p then
      { base with image_path := some ("assets/images/" ++ newId ++ env.suffix p) }
    else base

/-- `manager.duplicate_question`: generate the id from the ids stored for the
same `(subject_code, chapter_num)` pair and INSERT the copy. -/
def duplicate_question (env : Env) (store : List Question) (q : Question)
    (today : String) : List Question :=
  store ++ [dupRecord env store q today]

/- ===== Catalog loader/sorter (`generate_pdf.fetch_published_questions`) ===== -/

/-- `SUBJECT_ORDER.index(sub) if sub in SUBJECT_ORDER else 999`. -/
def subjectIdx (code : String) : Nat :=
  match SUBJECT_ORDER.findIdx? (fun s => s = code) with
  | some i => i
  | none => 999

/-- `CHAPTER_ORDER_MAP[sub].get(chap, 999) if sub in CHAPTER_ORDER_MAP else
999`: position of the chapter in the subject's ordered chapter mapping. -/
def chapterIdx (code ch : String) : Nat :=
  match subjectInfo code with
  | none => 999
  | some info =>
    match info.2.findIdx? (fun c => c.1 = ch) with
    | some i => i
    | none => 999

/-- The `sort_key` closure of `fetch_published_questions`. -/
def sort_key (q : Question) : Nat × Nat × String :=
  (subjectIdx q.subject_code, chapterIdx q.subject_code q.chapter_num, q.id)

/-- Python tuple comparison (lexicographic) on the sort keys. -/
def tripleLe (a b : Nat × Nat × String) : Bool :=
  decide (a.1 < b.1) ||
    (decide (a.1 = b.1) &&
      (decide (a.2.1 < b.2.1) ||
        (decide (a.2.1 = b.2.1) && strLe a.2.2 b.2.2)))

/-- `sorted` comparison used by `questions.sort(key=sort_key)`. -/
def keyLe (q₁ q₂ : Question) : Bool := tripleLe (sort_key q₁) (sort_key q₂)

/-- `ORDER BY id` comparison of the SQL query. -/
def idLe (q₁ q₂ : Question) : Bool := strLe q₁.id q₂.id

/-- `generate_pdf.fetch_published_questions` with the table contents passed
in: `SELECT * FROM questions WHERE status = 'published' ORDER BY id` followed
by the stable Python sort on `sort_key`. -/
def fetch_published_questions (rows : List Question) : List Question :=
  (((rows.filter (fun q => q.status = "published")).mergeSort idLe).mergeSort keyLe)

/- ===== Section builder (`generate_pdf.generate_content_pdf`) ===== -/

/-- Abstract content block (a ReportLab flowable of the story). -/
inductive Block where
  | spacer (pts : Nat)
  | pageBreak
  | coverTitle (text : String)
  | paragraph (text : String)
  | subjectTitle (text : String)
  | chapterTitle (text : String)
  | itemPara (num : Nat) (text : String)
  | choicePara (letter : Char) (text : String)
  | answerPara (num : Nat) (text : String)
  | image (path : String)
deriving Repr, DecidableEq

/-- `text.replace('\n', '<br/>')` character by character. -/
def brChars : List Char → List Char
  | [] => []
  | c :: cs =>
    if c = '\n' then '<' :: 'b' :: 'r' :: '/' :: '>' :: brChars cs
    else c :: brChars cs

/-- `text.replace('\n', '<br/>')`. -/
def brText (s : String) : String := String.mk (brChars s.data)

/-- `generate_pdf.safe_image`: `None` for a falsy path, a path that does not
exist, or an image ReportLab cannot load (the bare `except` absorbs every
error); otherwise the image flowable. -/
def safe_image (env : Env) (image_path : Option String) : Option Block :=
  match image_path with
  | none => none
  | some p => if p = "" then none
    else if env.resolves p then some (Block.image p) else none

/-- One iteration of `for opt in "ABCD"`: emit `f"{opt}. {val}"` when the
option column is truthy. -/
def choiceBlock (letter : Char) (val : Option String) : List Block :=
  match val with
  | none => []
  | some v => if v = "" then [] else [Block.choicePara letter v]

/-- The option paragraphs of a record, letters in fixed A–D order. -/
def choiceBlocks (q : Question) : List Block :=
  choiceBlock 'A' q.option_a ++ choiceBlock 'B' q.option_b ++
    choiceBlock 'C' q.option_c ++ choiceBlock 'D' q.option_d

/-- The story blocks of one record in the items pass (`for q in
chapter_group` body): numbered body, options for `single_choice` records,
optional image, trailing spacer. -/
def itemBlocks (env : Env) (n : Nat) (q : Question) : List Block :=
  Block.itemPara n (brText q.question_text) ::
    ((if q.question_type = "single_choice" then choiceBlocks q else []) ++
      (match safe_image env q.image_path with
       | some b => [Block.spacer 6, b]
       | none => []) ++
      [Block.spacer 12])

/-- The inner record loop of the items pass, threading the shared
`question_index` counter. -/
def questionsPass (env : Env) (counter : Nat) :
    List Question → List Block × Nat
  | [] => ([], counter)
  | q :: qs =>
    let rest := questionsPass env (counter + 1) qs
    (itemBlocks env counter q ++ rest.1, rest.2)

/-- Single pass of `itertools.groupby`: `acc` holds the current run
(reversed), keyed by `k`. -/
def groupRunsAux {α β : Type} (key : α → β) [DecidableEq β] (k : β)
    (acc : List α) : List α → List (β × List α)
  | [] => [(k, acc.reverse)]
  | a :: as =>
    if key a = k then groupRunsAux key k (a :: acc) as
    else (k, acc.reverse) :: groupRunsAux key (key a) [a] as

/-- `itertools.groupby`: maximal runs of adjacent elements sharing a key. -/
def groupRuns {α β : Type} (key : α → β) [DecidableEq β] :
    List α → List (β × List α)
  | [] => []
  | a :: as => groupRunsAux key (key a) [a] as

/-- The chapter loop of the items pass.  The chapter-name lookup
`SUBJECTS[subject_code]["chapters"][chapter_num]` raises `KeyError` on an
unknown chapter, hence the `Option`. -/
def chaptersPass (env : Env) (sc : String) (counter : Nat) :
    List (String × List Question) → Option (List Block × Nat)
  | [] => some ([], counter)
  | (ch, qs) :: rest => do
    let cname ← chapterName sc ch
    let qb := questionsPass env counter qs
    let restb ← chaptersPass env sc qb.2 rest
    some (Block.chapterTitle cname :: (qb.1 ++ restb.1), restb.2)

/-- The subject loop of the items pass; each subject ends with a page
break. -/
def subjectsPass (env : Env) (counter : Nat) :
    List (String × List Question) → Option (List Block × Nat)
  | [] => some ([], counter)
  | (sc, qs) :: rest => do
    let name ← subjectName sc
    let chb ← chaptersPass env sc counter
      (groupRuns (fun q => q.chapter_num) qs)
    let restb ← subjectsPass env chb.2 rest
    some (Block.subjectTitle name :: (chb.1 ++ Block.pageBreak :: restb.1),
      restb.2)

/-- The blocks of one record in the answers pass (`for i, q in
enumerate(questions, 1)` body). -/
def answerBlocks (env : Env) (i : Nat) (q : Question) : List Block :=
  Block.answerPara i q.correct_answer ::
    ((if truthy q.explanation then
        [Block.paragraph "解析：",
         Block.paragraph (brText (q.explanation.getD ""))]
      else []) ++
      (if truthy q.image_path then
        match safe_image env q.image_path with
        | some b => [Block.spacer 6, b]
        | none => []
      else []) ++
      [Block.spacer 12])

/-- The answers pass: the same flat question order, numbered from 1 by
`enumerate`. -/
def answersPass (env : Env) (i : Nat) : List Question → List Block
  | [] => []
  | q :: qs => answerBlocks env i q ++ answersPass env (i + 1) qs

/-- The cover blocks prepended once. -/
def coverBlocks (env : Env) : List Block :=
  [Block.spacer 108, Block.coverTitle "Open-CS-408", Block.coverTitle "习题册",
   Block.spacer 36, Block.paragraph ("生成时间：" ++ env.today),
   Block.pageBreak]

/-- `generate_pdf.generate_content_pdf`: the full story handed to
`doc.build`.  `none` models the `KeyError` raised on a subject or chapter
missing from `SUBJECTS`. -/
def generate_content_pdf (env : Env) (questions : List Question) :
    Option (List Block) := do
  let items ← subjectsPass env 1
    (groupRuns (fun q => q.subject_code) questions)
  some (coverBlocks env ++
    (Block.chapterTitle "习题" :: Block.spacer 12 :: items.1) ++
    (Block.chapterTitle "答案解析" :: Block.spacer 12 ::
      answersPass env 1 questions))

/- ===== Outline synchronizer (`generate_pdf.add_bookmarks`) ===== -/

/-- A bookmark node: pypdf `add_outline_item` label and 0-based page anchor,
with the children attached through the returned parent handle. -/
structure OutlineTree where
  label : String
  page : Nat
  children : List OutlineTree
deriving Repr

/-- The chapter loop of `add_bookmarks`: one node per chapter run, each at
`current_page`, which advances by exactly one page per chapter. -/
def chaptersOutline (sc : String) (cur : Nat) :
    List (String × List Question) → Option (List OutlineTree × Nat)
  | [] => some ([], cur)
  | (ch, _) :: rest => do
    let name ← chapterName sc ch
    let ts ← chaptersOutline sc (cur + 1) rest
    some (OutlineTree.mk name cur [] :: ts.1, ts.2)

/-- The subject loop of `add_bookmarks`: the subject node is created at the
`current_page` reached before its chapters are walked. -/
def subjectsOutline (cur : Nat) :
    List (String × List Question) → Option (List OutlineTree × Nat)
  | [] => some ([], cur)
  | (sc, qs) :: rest => do
    let name ← subjectName sc
    let chs ← chaptersOutline sc cur (groupRuns (fun q => q.chapter_num) qs)
    let ts ← subjectsOutline chs.2 rest
    some (OutlineTree.mk name cur chs.1 :: ts.1, ts.2)

/-- `generate_pdf.add_bookmarks`: the outline written into the final
artifact — `习题` at page 1 with the subject/chapter tree below it, then
`答案解析` at `len(reader.pages) - 1`. -/
def add_bookmarks (numPages : Nat) (questions : List Question) :
    Option (List OutlineTree) := do
  let subjects ← subjectsOutline 1
    (groupRuns (fun q => q.subject_code) questions)
  some [OutlineTree.mk "习题" 1 subjects.1,
    OutlineTree.mk "答案解析" (numPages - 1) []]

/- ===== CLI entry point (`generate_pdf` run as a script) ===== -/

/-- Exit status and diagnostic output of `python generate_pdf.py`.  Importing
the module runs `register_chinese_font`, whose uncaught `FileNotFoundError`
terminates the interpreter with status 1 before `main` starts; inside `main`
an empty catalog prints a warning and returns normally (status 0); an
uncaught exception from the content stage (`KeyError`) or from re-opening the
intermediate artifact in `add_bookmarks` exits with status 1. -/
def run_script (env : Env) : Nat × List String :=
  if env.fontExists = false then
    (1, ["FileNotFoundError: 字体文件未找到"])
  else
    let qs := fetch_published_questions env.rows
    if qs = [] then (0, ["无已发布题目"])
    else
      match generate_content_pdf env qs with
      | none => (1, ["KeyError"])
      | some _ =>
        if env.artifactReadable = false then (1, ["ArtifactUnavailable"])
        else
          match add_bookmarks env.numPages qs with
          | none => (1, ["KeyError"])
          | some _ => (0, ["完成"])

/- ===== Output staging (`main` + `add_bookmarks` file effects) ===== -/

/-- Filesystem facts the staging claim is about: whether the temporary
artifact exists, whether a file exists under the final published name, and
whether that file holds the complete bookmarked document. -/
structure FS where
  tempExists : Bool
  finalExists : Bool
  finalComplete : Bool
deriving Repr, DecidableEq

/-- The file-affecting steps of a run, in program order:
`generate_content_pdf(questions, temp_pdf)` writes the temporary artifact;
`PdfReader(pdf_path)` re-opens it; the outline items are added in memory;
`open(final_path, "wb")` creates (or truncates) the file under the final
name; `writer.write(f)` fills it; `Path(temp_pdf).unlink()` removes the
temporary file. -/
def applyStep (fs : FS) : Nat → FS
  | 0 => { fs with tempExists := true }
  | 1 => fs
  | 2 => fs
  | 3 => { fs with finalExists := true, finalComplete := false }
  | 4 => { fs with finalComplete := true }
  | _ => { fs with tempExists := false }

/-- Run the pipeline from an empty directory; `failAt = some k` means step
`k` raises (steps before it completed, it contributes no effect beyond what
its partial execution implies, and nothing after it runs).  A failure inside
`writer.write` is step 4 failing: the file created by step 3 stays behind,
incomplete. -/
def runPipeline (failAt : Option Nat) : FS :=
  ((List.range 6).take (failAt.getD 6)).foldl applyStep
    (FS.mk false false false)


/-- The `(number, text)` pairs of the numbered item paragraphs of a block
stream, in emission order. -/
def itemEntries (bs : List Block) : List (Nat × String) :=
  bs.filterMap (fun b =>
    match b with
    | Block.itemPara n t => some (n, t)
    | _ => none)

/-- The numeric labels of the numbered item paragraphs, in emission order. -/
def itemNums (bs : List Block) : List Nat :=
  (itemEntries bs).map (fun e => e.1)

/-- The `(number, answer)` pairs of the answer paragraphs, in emission
order. -/
def answerEntries (bs : List Block) : List (Nat × String) :=
  bs.filterMap (fun b =>
    match b with
    | Block.answerPara n t => some (n, t)
    | _ => none)

/-- The letters of the emitted choice paragraphs, in emission order. -/
def choiceLetters (bs : List Block) : List Char :=
  bs.filterMap (fun b =>
    match b with
    | Block.choicePara c _ => some c
    | _ => none)

/-- Paths of the emitted image blocks. -/
def imagePaths (bs : List Block) : List String :=
  bs.filterMap (fun b =>
    match b with
    | Block.image p => some p
    | _ => none)

/-- The option column addressed by `f"option_{opt.lower()}"`. -/
def optField (q : Question) (c : Char) : Option String :=
  if c = 'A' then q.option_a
  else if c = 'B' then q.option_b
  else if c = 'C' then q.option_c
  else if c = 'D' then q.option_d
  else none

/-- A concrete environment for closed instances: no image resolves, the font
exists, the artifact is readable. -/
def sampleEnv : Env :=
  { resolves := fun _ => false, today := "2026-10-12", fontExists := true,
    rows := [], artifactReadable := true, numPages := 5,
    suffix := fun _ => ".png" }

/-- A minimal published record for concrete instances. -/
def sampleQ (id sc ch : String) : Question :=
  { id := id, subject_code := sc, chapter_num := ch,
    question_type := "application", status := "published",
    question_text := "题面", option_a := none, option_b := none,
    option_c := none, option_d := none, correct_answer := "答案",
    explanation := none, knowledge := none, notes := none,
    created_date := "2026-01-01", last_modified := "2026-01-01",
    image_path := none }

/-- `sampleEnv` with one published row and an unreadable intermediate
artifact. -/
def sampleEnvBadArtifact : Env :=
  { resolves := fun _ => false, today := "2026-10-12", fontExists := true,
    rows := [sampleQ "DS01000001" "DS" "01"], artifactReadable := false,
    numPages := 5, suffix := fun _ => ".png" }


/- ================================================================
   Theorems
   ================================================================ -/

/- ===== C3: identifier assignment ===== -/

/-- Claim C3 is false on the code: with existing ids `DS01000001` and the
legacy-format `DS01LEGACY` (the lexicographically greatest), the assigner
restarts the sequence and returns `DS01000001` — an id already in the set —
whereas the claimed max-computation over parsing ids (embodied by
`spec_generate_question_id`) yields `DS01000002`.  The malformed id is not
"skipped": it masks the well-formed ones. -/
theorem assigner_restarts_on_malformed_max :
    generate_question_id "DS" "01" ["DS01000001", "DS01LEGACY"] = "DS01000001" ∧
    spec_generate_question_id "DS" "01" ["DS01000001", "DS01LEGACY"] = "DS01000002" ∧
    "DS01000001" ∈ ["DS01000001", "DS01LEGACY"] := by
  refine ⟨by decide, by decide, by decide⟩

/-- Claim C3, amended: the assigner consults only the lexicographically
greatest identifier stored for the pair.  If that identifier parses as
prefix + 6 digits the next sequence value is its value plus one; otherwise —
including when a malformed identifier happens to be the lexicographic
maximum — the sequence restarts at 1.  No error is signalled either way. -/
theorem assigner_uses_lexicographic_max_only :
    ∀ sc ch existing,
      (maxId existing = none →
        generate_question_id sc ch existing = sc ++ ch ++ pad6 1) ∧
      (∀ last n, maxId existing = some last →
        parseSeq (sc ++ ch) last = some n →
        generate_question_id sc ch existing = sc ++ ch ++ pad6 (n + 1)) ∧
      (∀ last, maxId existing = some last →
        parseSeq (sc ++ ch) last = none →
        generate_question_id sc ch existing = sc ++ ch ++ pad6 1) := by
  intro sc ch existing
  refine ⟨fun h => by simp [generate_question_id, h],
    fun last n h hp => by simp [generate_question_id, h, hp],
    fun last h hp => by simp [generate_question_id, h, hp]⟩

/-- Concrete instance of the amended C3 claim: a malformed lexicographic
maximum restarts the sequence. -/
theorem assigner_uses_lexicographic_max_only_witness :
    generate_question_id "DS" "01" ["DS01000001", "DS01LEGACY"] =
      "DS" ++ "01" ++ pad6 1 :=
  (assigner_uses_lexicographic_max_only "DS" "01"
    ["DS01000001", "DS01LEGACY"]).2.2 "DS01LEGACY" (by decide) (by decide)

/- ===== C7: output staging ===== -/

/-- Claim C7 is false on the code: the bookmark stage writes the final
artifact directly to the published name, so a failure inside
`writer.write(f)` (step 4, after `open(final_path, "wb")` created the file)
leaves a partial file under the final published name. -/
theorem failed_final_write_leaves_partial_output :
    (runPipeline (some 4)).finalExists = true ∧
    (runPipeline (some 4)).finalComplete = false := by decide

/-- Claim C7, amended: content is rendered to the temporary name first and
nothing appears under the final name while any stage up to and including the
outline construction fails (the final file is only created by the
`open(final_path, "wb")` of the bookmark stage, after the outline has been
assembled); a complete run leaves a complete final file and removes the
temporary one.  However the bookmarked document is written directly to the
final name, not staged and renamed, so a failure during that write (step 4)
leaves a partial file under the final published name. -/
theorem final_name_created_only_after_outline :
    (∀ k, k < 4 → (runPipeline (some k)).finalExists = false) ∧
    (∀ k, k < 5 → (runPipeline (some k)).finalComplete = false) ∧
    (runPipeline none).finalExists = true ∧
    (runPipeline none).finalComplete = true ∧
    (runPipeline none).tempExists = false := by decide

/-- Concrete instance of the amended C7 claim: a failure while re-opening
the intermediate artifact (step 1) leaves nothing under the final name. -/
theorem final_name_created_only_after_outline_witness :
    (runPipeline (some 1)).finalExists = false ∧
    (runPipeline (some 4)).finalComplete = false :=
  ⟨final_name_created_only_after_outline.1 1 (by decide),
   final_name_created_only_after_outline.2.1 4 (by decide)⟩

/- ===== C9: duplication ===== -/

/-- Claim C9: duplicating a record inserts exactly one new record, whose
status is `draft` and whose id is freshly generated from the ids stored for
the same `(subject_code, chapter_num)` pair, whatever the source record's
status; consequently the set of published rows of the store is unchanged. -/
theorem duplicate_inserts_draft_copy :
    ∀ env store q today, ∃ newQ,
      duplicate_question env store q today = store ++ [newQ] ∧
      newQ.status = "draft" ∧
      newQ.id = generate_question_id q.subject_code q.chapter_num
        ((store.filter (fun r =>
          r.subject_code = q.subject_code ∧
            r.chapter_num = q.chapter_num)).map (fun r => r.id)) ∧
      (duplicate_question env store q today).filter
          (fun r => r.status = "published") =
        store.filter (fun r => r.status = "published") := by
  intro env store q today
  refine ⟨dupRecord env store q today, rfl, ?_, ?_, ?_⟩
  · unfold dupRecord
    cases q.image_path <;> simp only [] <;> first | rfl | (split <;> rfl)
  · unfold dupRecord
    cases q.image_path <;> simp only [] <;> first | rfl | (split <;> rfl)
  · have hs : (dupRecord env store q today).status = "draft" := by
      unfold dupRecord
      cases q.image_path <;> simp only [] <;> first | rfl | (split <;> rfl)
    unfold duplicate_question
    rw [List.filter_append]
    simp [List.filter, hs]

/- ===== C10: update frame ===== -/

/-- Claim C10: updating a record rewrites exactly the rows bearing the
payload's id (there is at most one, `id` being the primary key; the map over
the whole table is the semantics of `UPDATE ... WHERE id = ?`), and on such
a row it preserves `id` and `created_date` — absent from the SET list — and
stamps `last_modified` with today's date; every other row is returned
untouched. -/
theorem update_question_frame :
    ∀ store qd today,
      List.Forall₂ (fun r r' =>
        r'.id = r.id ∧ r'.created_date = r.created_date ∧
        (r.id = qd.id → r'.last_modified = today) ∧
        (r.id ≠ qd.id → r' = r))
        store (update_question store qd today) := by
  intro store qd today
  unfold update_question
  induction store with
  | nil => simp
  | cons r rs ih =>
    refine List.Forall₂.cons ?_ ih
    by_cases h : r.id = qd.id <;> simp [updateRow, h]

/-- Concrete instance of C10 at an empty store. -/
theorem update_question_frame_witness :
    List.Forall₂ (fun r r' =>
      r'.id = r.id ∧ r'.created_date = r.created_date ∧
      (r.id = (default : Question).id → r'.last_modified = "2026-10-12") ∧
      (r.id ≠ (default : Question).id → r' = r))
      [] (update_question [] default "2026-10-12") :=
  update_question_frame [] default "2026-10-12"


theorem charToNat_inj {a b : Char} (h : a.toNat = b.toNat) : a = b :=
  Char.eq_of_val_eq (UInt32.ext h)

theorem lexCmp_eq_iff : ∀ x y : List Char, lexCmp x y = Ordering.eq ↔ x = y := by
  intro x
  induction x with
  | nil => intro y; cases y <;> simp [lexCmp]
  | cons a as ih =>
    intro y
    cases y with
    | nil => simp [lexCmp]
    | cons b bs =>
      simp only [lexCmp, List.cons.injEq]
      rcases Nat.lt_trichotomy a.toNat b.toNat with h | h | h
      · rw [if_pos h]
        constructor
        · intro hc; cases hc
        · rintro ⟨rfl, rfl⟩; exact absurd h (Nat.lt_irrefl _)
      · rw [if_neg (by omega), if_neg (by omega), ih bs]
        constructor
        · intro hh; exact ⟨charToNat_inj h, hh⟩
        · rintro ⟨-, rfl⟩; rfl
      · rw [if_neg (by omega), if_pos h]
        constructor
        · intro hc; cases hc
        · rintro ⟨rfl, rfl⟩; exact absurd h (Nat.lt_irrefl _)

theorem lexCmp_swap : ∀ x y : List Char, (lexCmp x y).swap = lexCmp y x := by
  intro x
  induction x with
  | nil => intro y; cases y <;> rfl
  | cons a as ih =>
    intro y
    cases y with
    | nil => rfl
    | cons b bs =>
      simp only [lexCmp]
      rcases Nat.lt_trichotomy a.toNat b.toNat with h | h | h
      · rw [if_pos h, if_neg (by omega), if_pos h]; rfl
      · rw [if_neg (by omega), if_neg (by omega), if_neg (by omega), if_neg (by omega)]
        exact ih bs
      · rw [if_neg (by omega), if_pos h, if_pos h]; rfl

theorem lexCmp_cons_lt_iff {a b : Char} {as bs : List Char} :
    lexCmp (a :: as) (b :: bs) = Ordering.lt ↔
      a.toNat < b.toNat ∨ (a.toNat = b.toNat ∧ lexCmp as bs = Ordering.lt) := by
  simp only [lexCmp]
  rcases Nat.lt_trichotomy a.toNat b.toNat with h | h | h
  · rw [if_pos h]; simp [h]
  · rw [if_neg (by omega), if_neg (by omega)]; simp [h]
  · rw [if_neg (by omega), if_pos h]
    constructor
    · intro hc; cases hc
    · intro hc; rcases hc with hc | ⟨hc, -⟩ <;> omega

theorem lexCmp_lt_trans : ∀ x y z : List Char,
    lexCmp x y = Ordering.lt → lexCmp y z = Ordering.lt →
    lexCmp x z = Ordering.lt := by
  intro x
  induction x with
  | nil =>
    intro y z hxy hyz
    cases y with
    | nil => exact hyz
    | cons b bs =>
      cases z with
      | nil => cases hyz
      | cons c cs => rfl
  | cons a as ih =>
    intro y z hxy hyz
    cases y with
    | nil => cases hxy
    | cons b bs =>
      cases z with
      | nil => cases hyz
      | cons c cs =>
        rw [lexCmp_cons_lt_iff] at hxy hyz ⊢
        rcases hxy with h1 | ⟨h1, h1'⟩ <;> rcases hyz with h2 | ⟨h2, h2'⟩
        · exact Or.inl (by omega)
        · exact Or.inl (by omega)
        · exact Or.inl (by omega)
        · exact Or.inr ⟨by omega, ih bs cs h1' h2'⟩

theorem lexCmp_self (x : List Char) : lexCmp x x = Ordering.eq :=
  (lexCmp_eq_iff x x).2 rfl

theorem strLe_total (a b : String) : strLe a b = true ∨ strLe b a = true := by
  by_cases h : lexCmp a.data b.data = Ordering.gt
  · right
    have hs := lexCmp_swap a.data b.data
    rw [h] at hs
    simp only [strLe, Bool.not_eq_true', decide_eq_false_iff_not]
    rw [← hs]
    decide
  · left; simp [strLe, h]

theorem strLe_antisymm {a b : String} (h₁ : strLe a b = true)
    (h₂ : strLe b a = true) : a = b := by
  simp only [strLe, Bool.not_eq_true', decide_eq_false_iff_not] at h₁ h₂
  have hs := lexCmp_swap a.data b.data
  apply String.ext
  rw [← lexCmp_eq_iff]
  cases hc : lexCmp a.data b.data with
  | eq => rfl
  | gt => exact absurd hc h₁
  | lt => rw [hc] at hs; exact absurd hs.symm h₂

theorem strLe_trans {a b c : String} (h₁ : strLe a b = true)
    (h₂ : strLe b c = true) : strLe a c = true := by
  simp only [strLe, Bool.not_eq_true', decide_eq_false_iff_not] at h₁ h₂ ⊢
  intro hac
  have hlt : lexCmp c.data a.data = Ordering.lt := by
    have := lexCmp_swap a.data c.data
    rw [hac] at this
    exact this.symm
  cases hab : lexCmp a.data b.data with
  | gt => exact h₁ hab
  | eq =>
    have : a.data = b.data := (lexCmp_eq_iff _ _).1 hab
    rw [this] at hac
    exact h₂ hac
  | lt =>
    cases hbc : lexCmp b.data c.data with
    | gt => exact h₂ hbc
    | eq =>
      have : b.data = c.data := (lexCmp_eq_iff _ _).1 hbc
      rw [this] at hab
      have := lexCmp_lt_trans _ _ _ hab hlt
      rw [lexCmp_self] at this
      cases this
    | lt =>
      have h3 := lexCmp_lt_trans _ _ _ hab hbc
      have h4 := lexCmp_lt_trans _ _ _ h3 hlt
      rw [lexCmp_self] at h4
      cases h4

theorem tripleLe_total (a b : Nat × Nat × String) :
    tripleLe a b = true ∨ tripleLe b a = true := by
  simp only [tripleLe, Bool.or_eq_true, Bool.and_eq_true, decide_eq_true_eq]
  rcases Nat.lt_trichotomy a.1 b.1 with h | h | h
  · exact Or.inl (Or.inl h)
  · rcases Nat.lt_trichotomy a.2.1 b.2.1 with h' | h' | h'
    · exact Or.inl (Or.inr ⟨h, Or.inl h'⟩)
    · rcases strLe_total a.2.2 b.2.2 with hs | hs
      · exact Or.inl (Or.inr ⟨h, Or.inr ⟨h', hs⟩⟩)
      · exact Or.inr (Or.inr ⟨h.symm, Or.inr ⟨h'.symm, hs⟩⟩)
    · exact Or.inr (Or.inr ⟨h.symm, Or.inl h'⟩)
  · exact Or.inr (Or.inl h)

theorem tripleLe_trans {a b c : Nat × Nat × String} (h₁ : tripleLe a b = true)
    (h₂ : tripleLe b c = true) : tripleLe a c = true := by
  simp only [tripleLe, Bool.or_eq_true, Bool.and_eq_true, decide_eq_true_eq] at h₁ h₂ ⊢
  rcases h₁ with h₁ | ⟨e₁, h₁⟩
  · rcases h₂ with h₂ | ⟨e₂, -⟩
    · exact Or.inl (by omega)
    · exact Or.inl (by omega)
  · rcases h₂ with h₂ | ⟨e₂, h₂⟩
    · exact Or.inl (by omega)
    · refine Or.inr ⟨by omega, ?_⟩
      rcases h₁ with h₁ | ⟨e₁', h₁⟩
      · rcases h₂ with h₂ | ⟨e₂', -⟩
        · exact Or.inl (by omega)
        · exact Or.inl (by omega)
      · rcases h₂ with h₂ | ⟨e₂', h₂⟩
        · exact Or.inl (by omega)
        · exact Or.inr ⟨by omega, strLe_trans h₁ h₂⟩

theorem tripleLe_antisymm {a b : Nat × Nat × String} (h₁ : tripleLe a b = true)
    (h₂ : tripleLe b a = true) : a = b := by
  simp only [tripleLe, Bool.or_eq_true, Bool.and_eq_true, decide_eq_true_eq] at h₁ h₂
  have e1 : a.1 = b.1 := by
    rcases h₁ with h₁ | ⟨e₁, -⟩ <;> rcases h₂ with h₂ | ⟨e₂, -⟩ <;> omega
  have e2 : a.2.1 = b.2.1 := by
    rcases h₁ with h₁ | ⟨-, h₁⟩
    · omega
    · rcases h₂ with h₂ | ⟨-, h₂⟩
      · omega
      · rcases h₁ with h₁ | ⟨e, -⟩ <;> rcases h₂ with h₂ | ⟨e', -⟩ <;> omega
  have e3 : a.2.2 = b.2.2 := by
    rcases h₁ with h₁ | ⟨-, h₁ | ⟨-, h₁⟩⟩
    · omega
    · omega
    · rcases h₂ with h₂ | ⟨-, h₂ | ⟨-, h₂⟩⟩
      · omega
      · omega
      · exact strLe_antisymm h₁ h₂
  exact Prod.ext e1 (Prod.ext e2 e3)

theorem sorted_perm_eq {α : Type} (r : α → α → Bool) :
    ∀ {l₁ l₂ : List α}, l₁.Pairwise (fun a b => r a b = true) →
      (∀ a ∈ l₁, ∀ b ∈ l₁, r a b = true → r b a = true → a = b) →
      l₁.Perm l₂ → l₂.Pairwise (fun a b => r a b = true) → l₁ = l₂ := by
  intro l₁ l₂ hs₁
  induction hs₁ generalizing l₂ with
  | nil =>
    intro _ hp _
    exact hp.nil_eq
  | @cons a l h₁ hs₁ IH =>
    intro anti hp hs₂
    have ha₂ : a ∈ l₂ := hp.subset (List.mem_cons_self a l)
    obtain ⟨u₂, v₂, rfl⟩ := List.append_of_mem ha₂
    have hp' : l.Perm (u₂ ++ v₂) := (List.perm_cons a).1 (hp.trans List.perm_middle)
    have anti' : ∀ x ∈ l, ∀ y ∈ l, r x y = true → r y x = true → x = y :=
      fun x hx y hy => anti x (List.mem_cons_of_mem _ hx) y (List.mem_cons_of_mem _ hy)
    have hs₂' : (u₂ ++ v₂).Pairwise (fun a b => r a b = true) :=
      hs₂.sublist (by simp)
    obtain rfl := IH anti' hp' hs₂'
    have hall : ∀ x ∈ u₂, x = a := by
      intro x hxu
      have hx_l : x ∈ u₂ ++ v₂ := List.mem_append_left _ hxu
      have h₁x : r a x = true := h₁ x hx_l
      have h₂x : r x a = true :=
        (List.pairwise_append.1 hs₂).2.2 x hxu a (List.mem_cons_self _ _)
      exact anti x (List.mem_cons_of_mem _ hx_l) a (List.mem_cons_self _ _) h₂x h₁x
    have hu : u₂ = List.replicate u₂.length a := List.eq_replicate_of_mem hall
    rw [hu]
    clear hall hu hs₂ hs₂' hp hp' h₁ anti anti' ha₂
    induction u₂.length with
    | zero => simp
    | succ n ihn =>
      rw [List.replicate_succ]
      simpa using ihn

theorem keyLe_trans : ∀ a b c : Question, keyLe a b = true →
    keyLe b c = true → keyLe a c = true :=
  fun _ _ _ h₁ h₂ => tripleLe_trans h₁ h₂

theorem keyLe_total (a b : Question) : (keyLe a b || keyLe b a) = true := by
  rcases tripleLe_total (sort_key a) (sort_key b) with h | h <;> simp [keyLe, h]

theorem idLe_trans : ∀ a b c : Question, idLe a b = true →
    idLe b c = true → idLe a c = true :=
  fun _ _ _ h₁ h₂ => strLe_trans h₁ h₂

theorem idLe_total (a b : Question) : (idLe a b || idLe b a) = true := by
  rcases strLe_total a.id b.id with h | h <;> simp [idLe, h]

theorem subjectIdx_lt_of_mem {c : String} (h : c ∈ SUBJECT_ORDER) :
    subjectIdx c < 999 := by
  have hc : c = "DS" ∨ c = "CO" ∨ c = "OS" ∨ c = "CN" := by
    simpa [SUBJECT_ORDER, SUBJECTS] using h
  rcases hc with rfl | rfl | rfl | rfl <;> decide

theorem subjectIdx_of_not_mem {c : String} (h : c ∉ SUBJECT_ORDER) :
    subjectIdx c = 999 := by
  have hc : ¬(c = "DS") ∧ ¬(c = "CO") ∧ ¬(c = "OS") ∧ ¬(c = "CN") := by
    simpa [SUBJECT_ORDER, SUBJECTS] using h
  simp only [subjectIdx, SUBJECT_ORDER, SUBJECTS, List.map, List.findIdx?_cons]
  simp [Ne.symm hc.1, Ne.symm hc.2.1, Ne.symm hc.2.2.1, Ne.symm hc.2.2.2,
    List.findIdx?_nil]

/-- Claim C5: the loader's output is sorted by the key
`(group rank, subgroup rank, id)` (ranks drawn from the configured display
order, with unranked groups ranked 999, after every configured rank); it is a
permutation of the published subset of the store; and — ids determining
records — it is the same list for any enumeration order of the store, i.e. a
function of the record set alone. -/
theorem fetch_published_deterministic_sorted :
    ∀ rows₁ rows₂ : List Question, rows₁.Perm rows₂ →
      (∀ a ∈ rows₁, ∀ b ∈ rows₁, a.id = b.id → a = b) →
      fetch_published_questions rows₁ = fetch_published_questions rows₂ ∧
      (fetch_published_questions rows₁).Pairwise (fun a b => keyLe a b = true) ∧
      (fetch_published_questions rows₁).Perm
        (rows₁.filter (fun q => q.status = "published")) ∧
      (∀ q q' : Question, q.subject_code ∈ SUBJECT_ORDER →
        q'.subject_code ∉ SUBJECT_ORDER → (sort_key q).1 < (sort_key q').1) := by
  intro rows₁ rows₂ hp hinj
  have hfperm :
      (rows₁.filter (fun q => q.status = "published")).Perm
        (rows₂.filter (fun q => q.status = "published")) :=
    hp.filter _
  have hinj' : ∀ a ∈ (rows₁.filter (fun q => q.status = "published")).mergeSort idLe,
      ∀ b ∈ (rows₁.filter (fun q => q.status = "published")).mergeSort idLe,
      idLe a b = true → idLe b a = true → a = b := by
    intro a ha b hb h₁ h₂
    have ha' : a ∈ rows₁ := List.mem_of_mem_filter (List.mem_mergeSort.1 ha)
    have hb' : b ∈ rows₁ := List.mem_of_mem_filter (List.mem_mergeSort.1 hb)
    exact hinj a ha' b hb' (strLe_antisymm h₁ h₂)
  have hinner :
      (rows₁.filter (fun q => q.status = "published")).mergeSort idLe =
        (rows₂.filter (fun q => q.status = "published")).mergeSort idLe :=
    sorted_perm_eq idLe
      (List.sorted_mergeSort idLe_trans idLe_total _)
      hinj'
      ((List.mergeSort_perm _ idLe).trans
        (hfperm.trans (List.mergeSort_perm _ idLe).symm))
      (List.sorted_mergeSort idLe_trans idLe_total _)
  refine ⟨?_, ?_, ?_, ?_⟩
  · unfold fetch_published_questions
    rw [hinner]
  · exact List.sorted_mergeSort keyLe_trans keyLe_total _
  · exact (List.mergeSort_perm _ keyLe).trans (List.mergeSort_perm _ idLe)
  · intro q q' hin hout
    have h1 := subjectIdx_lt_of_mem hin
    have h2 := subjectIdx_of_not_mem hout
    simp only [sort_key]
    omega

theorem fetch_published_deterministic_sorted_witness :
    fetch_published_questions
        [sampleQ "OS01000001" "OS" "01", sampleQ "DS01000001" "DS" "01"] =
      fetch_published_questions
        [sampleQ "DS01000001" "DS" "01", sampleQ "OS01000001" "OS" "01"] ∧
    (fetch_published_questions
        [sampleQ "OS01000001" "OS" "01", sampleQ "DS01000001" "DS" "01"]).Pairwise
      (fun a b => keyLe a b = true) ∧
    (fetch_published_questions
        [sampleQ "OS01000001" "OS" "01", sampleQ "DS01000001" "DS" "01"]).Perm
      ([sampleQ "OS01000001" "OS" "01", sampleQ "DS01000001" "DS" "01"].filter
        (fun q => q.status = "published")) ∧
    (∀ q q' : Question, q.subject_code ∈ SUBJECT_ORDER →
      q'.subject_code ∉ SUBJECT_ORDER → (sort_key q).1 < (sort_key q').1) :=
  fetch_published_deterministic_sorted _ _ (by decide) (by decide)


theorem itemEntries_append (a b : List Block) :
    itemEntries (a ++ b) = itemEntries a ++ itemEntries b := by
  simp [itemEntries]

theorem answerEntries_append (a b : List Block) :
    answerEntries (a ++ b) = answerEntries a ++ answerEntries b := by
  simp [answerEntries]

theorem itemEntries_choiceBlock (c : Char) (v : Option String) :
    itemEntries (choiceBlock c v) = [] := by
  cases v with
  | none => rfl
  | some s =>
    simp only [choiceBlock]
    split
    · rfl
    · rfl

theorem answerEntries_choiceBlock (c : Char) (v : Option String) :
    answerEntries (choiceBlock c v) = [] := by
  cases v with
  | none => rfl
  | some s =>
    simp only [choiceBlock]
    split
    · rfl
    · rfl

theorem itemEntries_choiceBlocks (q : Question) :
    itemEntries (choiceBlocks q) = [] := by
  simp [choiceBlocks, itemEntries_append, itemEntries_choiceBlock]

theorem answerEntries_choiceBlocks (q : Question) :
    answerEntries (choiceBlocks q) = [] := by
  simp [choiceBlocks, answerEntries_append, answerEntries_choiceBlock]

theorem safe_image_shape (env : Env) (p : Option String) (b : Block)
    (h : safe_image env p = some b) : ∃ s, b = Block.image s := by
  cases p with
  | none => cases h
  | some s =>
    simp only [safe_image] at h
    by_cases h1 : s = ""
    · rw [if_pos h1] at h; cases h
    · rw [if_neg h1] at h
      by_cases h2 : env.resolves s = true
      · rw [if_pos h2] at h
        exact ⟨s, (Option.some_inj.mp h).symm⟩
      · rw [if_neg h2] at h; cases h

theorem itemEntries_cons (b : Block) (l : List Block) :
    itemEntries (b :: l) =
      (match b with
        | Block.itemPara n t => [(n, t)]
        | _ => []) ++ itemEntries l := by
  cases b <;> rfl

theorem answerEntries_cons (b : Block) (l : List Block) :
    answerEntries (b :: l) =
      (match b with
        | Block.answerPara n t => [(n, t)]
        | _ => []) ++ answerEntries l := by
  cases b <;> rfl

theorem itemEntries_imgPart (env : Env) (p : Option String) :
    itemEntries
      (match safe_image env p with
        | some b => [Block.spacer 6, b]
        | none => []) = [] := by
  cases h : safe_image env p with
  | none => rfl
  | some b => obtain ⟨s, rfl⟩ := safe_image_shape env p b h; rfl

theorem answerEntries_imgPart (env : Env) (p : Option String) :
    answerEntries
      (match safe_image env p with
        | some b => [Block.spacer 6, b]
        | none => []) = [] := by
  cases h : safe_image env p with
  | none => rfl
  | some b => obtain ⟨s, rfl⟩ := safe_image_shape env p b h; rfl

theorem itemEntries_itemBlocks (env : Env) (n : Nat) (q : Question) :
    itemEntries (itemBlocks env n q) = [(n, brText q.question_text)] := by
  have hch : itemEntries
      (if q.question_type = "single_choice" then choiceBlocks q else []) = [] := by
    split
    · exact itemEntries_choiceBlocks q
    · rfl
  rw [itemBlocks, itemEntries_cons, itemEntries_append, itemEntries_append,
    hch, itemEntries_imgPart]
  rfl

theorem answerEntries_itemBlocks (env : Env) (n : Nat) (q : Question) :
    answerEntries (itemBlocks env n q) = [] := by
  have hch : answerEntries
      (if q.question_type = "single_choice" then choiceBlocks q else []) = [] := by
    split
    · exact answerEntries_choiceBlocks q
    · rfl
  rw [itemBlocks, answerEntries_cons, answerEntries_append, answerEntries_append,
    hch, answerEntries_imgPart]
  rfl

theorem questionsPass_spec (env : Env) :
    ∀ (qs : List Question) (c : Nat),
      (questionsPass env c qs).2 = c + qs.length ∧
      itemEntries (questionsPass env c qs).1 =
        List.zipWith (fun n q => (n, brText q.question_text))
          (List.range' c qs.length) qs ∧
      answerEntries (questionsPass env c qs).1 = [] := by
  intro qs
  induction qs with
  | nil => intro c; refine ⟨rfl, rfl, rfl⟩
  | cons q qs ih =>
    intro c
    obtain ⟨h2, hI, hA⟩ := ih (c + 1)
    refine ⟨?_, ?_, ?_⟩
    · simp only [questionsPass, h2, List.length_cons]
      omega
    · simp only [questionsPass, itemEntries_append, itemEntries_itemBlocks,
        hI, List.length_cons, List.range'_succ, List.zipWith_cons_cons]
      rfl
    · simp only [questionsPass, answerEntries_append, answerEntries_itemBlocks,
        hA, List.nil_append]

theorem groupRunsAux_join {α β : Type} (key : α → β) [DecidableEq β] :
    ∀ (l : List α) (k : β) (acc : List α),
      ((groupRunsAux key k acc l).map (fun g => g.2)).flatten = acc.reverse ++ l := by
  intro l
  induction l with
  | nil => intro k acc; simp [groupRunsAux]
  | cons a as ih =>
    intro k acc
    simp only [groupRunsAux]
    split
    · rw [ih]
      simp
    · simp only [List.map_cons, List.flatten_cons]
      rw [ih]
      simp

theorem groupRuns_join {α β : Type} (key : α → β) [DecidableEq β] (l : List α) :
    ((groupRuns key l).map (fun g => g.2)).flatten = l := by
  cases l with
  | nil => rfl
  | cons a as =>
    rw [groupRuns, groupRunsAux_join]
    simp

theorem groupRunsAux_ne_nil {α β : Type} (key : α → β) [DecidableEq β] :
    ∀ (l : List α) (k : β) (acc : List α), acc ≠ [] →
      ∀ g ∈ groupRunsAux key k acc l, g.2 ≠ [] := by
  intro l
  induction l with
  | nil =>
    intro k acc hacc g hg
    simp only [groupRunsAux, List.mem_singleton] at hg
    subst hg
    simpa using hacc
  | cons a as ih =>
    intro k acc hacc g hg
    simp only [groupRunsAux] at hg
    split at hg
    · exact ih k (a :: acc) (by simp) g hg
    · rcases List.mem_cons.1 hg with rfl | hg'
      · simpa using hacc
      · exact ih (key a) [a] (by simp) g hg'

theorem groupRuns_ne_nil {α β : Type} (key : α → β) [DecidableEq β]
    (l : List α) : ∀ g ∈ groupRuns key l, g.2 ≠ [] := by
  cases l with
  | nil => intro g hg; cases hg
  | cons a as => exact groupRunsAux_ne_nil key as (key a) [a] (by simp)

theorem range'_split (c m n : Nat) :
    List.range' c (m + n) = List.range' c m ++ List.range' (c + m) n := by
  have h := List.range'_append c m n 1
  simp only [Nat.one_mul] at h
  rw [Nat.add_comm m n]
  exact h.symm

theorem chaptersPass_spec (env : Env) (sc : String) :
    ∀ (groups : List (String × List Question)) (c : Nat) (res : List Block × Nat),
      chaptersPass env sc c groups = some res →
      res.2 = c + ((groups.map (fun g => g.2)).flatten).length ∧
      itemEntries res.1 =
        List.zipWith (fun n q => (n, brText q.question_text))
          (List.range' c ((groups.map (fun g => g.2)).flatten).length)
          ((groups.map (fun g => g.2)).flatten) ∧
      answerEntries res.1 = [] := by
  intro groups
  induction groups with
  | nil =>
    intro c res h
    rw [chaptersPass] at h
    obtain rfl := (Option.some_inj.mp h).symm
    exact ⟨by simp, by simp [itemEntries], by simp [answerEntries]⟩
  | cons g rest ih =>
    intro c res h
    obtain ⟨ch, qs⟩ := g
    rw [chaptersPass] at h
    cases hcn : chapterName sc ch with
    | none => rw [hcn] at h; cases h
    | some cname =>
      rw [hcn] at h
      simp only [Option.pure_def, Option.bind_eq_bind, Option.some_bind] at h
      cases hrec : chaptersPass env sc (questionsPass env c qs).2 rest with
      | none => rw [hrec] at h; cases h
      | some restb =>
        rw [hrec] at h
        simp only [Option.pure_def, Option.bind_eq_bind, Option.some_bind] at h
        obtain rfl := (Option.some_inj.mp h).symm
        obtain ⟨hq2, hqI, hqA⟩ := questionsPass_spec env qs c
        rw [hq2] at hrec
        obtain ⟨hr2, hrI, hrA⟩ := ih (c + qs.length) restb hrec
        refine ⟨?_, ?_, ?_⟩
        · simp only [List.map_cons, List.flatten_cons, List.length_append]
          omega
        · simp only [itemEntries_cons, itemEntries_append, List.map_cons,
            List.flatten_cons, List.nil_append]
          rw [hqI, hrI, List.length_append, range'_split,
            List.zipWith_append _ _ _ _ _ (by rw [List.length_range'])]
        · simp only [answerEntries_cons, answerEntries_append, List.nil_append]
          rw [hqA, hrA]
          rfl

theorem subjectsPass_spec (env : Env) :
    ∀ (groups : List (String × List Question)) (c : Nat) (res : List Block × Nat),
      subjectsPass env c groups = some res →
      res.2 = c + ((groups.map (fun g => g.2)).flatten).length ∧
      itemEntries res.1 =
        List.zipWith (fun n q => (n, brText q.question_text))
          (List.range' c ((groups.map (fun g => g.2)).flatten).length)
          ((groups.map (fun g => g.2)).flatten) ∧
      answerEntries res.1 = [] := by
  intro groups
  induction groups with
  | nil =>
    intro c res h
    rw [subjectsPass] at h
    obtain rfl := (Option.some_inj.mp h).symm
    exact ⟨by simp, by simp [itemEntries], by simp [answerEntries]⟩
  | cons g rest ih =>
    intro c res h
    obtain ⟨sc, qs⟩ := g
    rw [subjectsPass] at h
    cases hsn : subjectName sc with
    | none => rw [hsn] at h; cases h
    | some name =>
      rw [hsn] at h
      simp only [Option.pure_def, Option.bind_eq_bind, Option.some_bind] at h
      cases hch : chaptersPass env sc c (groupRuns (fun q => q.chapter_num) qs) with
      | none => rw [hch] at h; cases h
      | some chb =>
        rw [hch] at h
        simp only [Option.some_bind] at h
        obtain ⟨hc2, hcI, hcA⟩ := chaptersPass_spec env sc _ c chb hch
        rw [groupRuns_join] at hc2 hcI
        cases hrec : subjectsPass env chb.2 rest with
        | none => rw [hrec] at h; cases h
        | some restb =>
          rw [hrec] at h
          simp only [Option.some_bind] at h
          obtain rfl := (Option.some_inj.mp h).symm
          rw [hc2] at hrec
          obtain ⟨hr2, hrI, hrA⟩ := ih (c + qs.length) restb hrec
          refine ⟨?_, ?_, ?_⟩
          · simp only [List.map_cons, List.flatten_cons, List.length_append]
            omega
          · simp only [itemEntries_cons, itemEntries_append, List.map_cons,
              List.flatten_cons, List.nil_append]
            rw [hcI, hrI, List.length_append, range'_split,
              List.zipWith_append _ _ _ _ _ (by rw [List.length_range'])]
          · simp only [answerEntries_cons, answerEntries_append, List.nil_append,
              hcA, hrA]

theorem answerEntries_answerBlocks (env : Env) (i : Nat) (q : Question) :
    answerEntries (answerBlocks env i q) = [(i, q.correct_answer)] := by
  have hexp : answerEntries
      (if truthy q.explanation then
        [Block.paragraph "解析：",
         Block.paragraph (brText (q.explanation.getD ""))]
      else []) = [] := by
    split
    · rfl
    · rfl
  have himg : answerEntries
      (if truthy q.image_path then
        match safe_image env q.image_path with
        | some b => [Block.spacer 6, b]
        | none => []
      else []) = [] := by
    split
    · exact answerEntries_imgPart env q.image_path
    · rfl
  rw [answerBlocks, answerEntries_cons, answerEntries_append,
    answerEntries_append, hexp, himg]
  rfl

theorem itemEntries_answerBlocks (env : Env) (i : Nat) (q : Question) :
    itemEntries (answerBlocks env i q) = [] := by
  have hexp : itemEntries
      (if truthy q.explanation then
        [Block.paragraph "解析：",
         Block.paragraph (brText (q.explanation.getD ""))]
      else []) = [] := by
    split
    · rfl
    · rfl
  have himg : itemEntries
      (if truthy q.image_path then
        match safe_image env q.image_path with
        | some b => [Block.spacer 6, b]
        | none => []
      else []) = [] := by
    split
    · exact itemEntries_imgPart env q.image_path
    · rfl
  rw [answerBlocks, itemEntries_cons, itemEntries_append,
    itemEntries_append, hexp, himg]
  rfl

theorem answersPass_spec (env : Env) :
    ∀ (qs : List Question) (i : Nat),
      answerEntries (answersPass env i qs) =
        List.zipWith (fun n q => (n, q.correct_answer))
          (List.range' i qs.length) qs ∧
      itemEntries (answersPass env i qs) = [] := by
  intro qs
  induction qs with
  | nil => intro i; exact ⟨rfl, rfl⟩
  | cons q qs ih =>
    intro i
    obtain ⟨hA, hI⟩ := ih (i + 1)
    constructor
    · rw [answersPass, answerEntries_append, answerEntries_answerBlocks, hA]
      simp [List.range'_succ]
    · rw [answersPass, itemEntries_append, itemEntries_answerBlocks, hI]
      rfl

theorem itemEntries_coverBlocks (env : Env) :
    itemEntries (coverBlocks env) = [] := rfl

theorem answerEntries_coverBlocks (env : Env) :
    answerEntries (coverBlocks env) = [] := rfl

theorem generate_content_pdf_entries (env : Env) (qs : List Question)
    (story : List Block) (h : generate_content_pdf env qs = some story) :
    itemEntries story =
      List.zipWith (fun n q => (n, brText q.question_text))
        (List.range' 1 qs.length) qs ∧
    answerEntries story =
      List.zipWith (fun n q => (n, q.correct_answer))
        (List.range' 1 qs.length) qs := by
  rw [generate_content_pdf] at h
  cases hsp : subjectsPass env 1 (groupRuns (fun q => q.subject_code) qs) with
  | none => rw [hsp] at h; cases h
  | some items =>
    rw [hsp] at h
    simp only [Option.pure_def, Option.bind_eq_bind, Option.some_bind] at h
    obtain rfl := (Option.some_inj.mp h).symm
    obtain ⟨-, hI, hA⟩ := subjectsPass_spec env _ 1 items hsp
    rw [groupRuns_join] at hI
    obtain ⟨haA, haI⟩ := answersPass_spec env qs 1
    constructor
    · simp only [itemEntries_append, itemEntries_cons, itemEntries_coverBlocks,
        hI, haI, List.nil_append, List.append_nil]
    · simp only [answerEntries_append, answerEntries_cons,
        answerEntries_coverBlocks, hA, haA, List.nil_append, List.append_nil]

/-- Claim C1: in every successfully built story, the k-th record of the flat
sorted sequence bears the numeric label k in the items section and the same
label k in the answers section — the numbered item paragraphs are exactly
`(1, body 1), …, (N, body N)` and the answer paragraphs are exactly
`(1, answer 1), …, (N, answer N)` over the same flat order. -/
theorem items_and_answers_share_numbering :
    ∀ (env : Env) (qs : List Question) (story : List Block),
      generate_content_pdf env qs = some story →
      itemEntries story =
        List.zipWith (fun n q => (n, brText q.question_text))
          (List.range' 1 qs.length) qs ∧
      answerEntries story =
        List.zipWith (fun n q => (n, q.correct_answer))
          (List.range' 1 qs.length) qs :=
  fun env qs story h => generate_content_pdf_entries env qs story h

/-- Concrete instance of C1: two records spanning two chapters. -/
theorem items_and_answers_share_numbering_witness :
    itemEntries ((generate_content_pdf sampleEnv
        [sampleQ "DS01000001" "DS" "01", sampleQ "DS02000001" "DS" "02"]).getD []) =
      List.zipWith (fun n q => (n, brText q.question_text))
        (List.range' 1 [sampleQ "DS01000001" "DS" "01",
          sampleQ "DS02000001" "DS" "02"].length)
        [sampleQ "DS01000001" "DS" "01", sampleQ "DS02000001" "DS" "02"] ∧
    answerEntries ((generate_content_pdf sampleEnv
        [sampleQ "DS01000001" "DS" "01", sampleQ "DS02000001" "DS" "02"]).getD []) =
      List.zipWith (fun n q => (n, q.correct_answer))
        (List.range' 1 [sampleQ "DS01000001" "DS" "01",
          sampleQ "DS02000001" "DS" "02"].length)
        [sampleQ "DS01000001" "DS" "01", sampleQ "DS02000001" "DS" "02"] :=
  items_and_answers_share_numbering sampleEnv _ _ (by rfl)

/-- Claim C6: in every successfully built story the numbered item paragraphs
carry exactly the labels 1..N, in order, with no gaps and no duplicates —
whatever the distribution of the N records over subjects and chapters;
headings and section breaks never consume a number. -/
theorem items_numbered_one_to_N :
    ∀ (env : Env) (qs : List Question) (story : List Block),
      generate_content_pdf env qs = some story →
      itemNums story = List.range' 1 qs.length := by
  intro env qs story h
  obtain ⟨hI, -⟩ := generate_content_pdf_entries env qs story h
  rw [itemNums, hI]
  have hgen : ∀ (xs : List Nat) (ys : List Question), xs.length = ys.length →
      (List.zipWith (fun n q => (n, brText q.question_text)) xs ys).map
        (fun e => e.1) = xs := by
    intro xs
    induction xs with
    | nil => intro ys hlen; rfl
    | cons x xs ih =>
      intro ys hlen
      cases ys with
      | nil => cases hlen
      | cons y ys => simp [ih ys (by simpa using hlen)]
  exact hgen _ _ (by rw [List.length_range'])

/-- Concrete instance of C6: two records over two chapters are numbered
`[1, 2]`. -/
theorem items_numbered_one_to_N_witness :
    itemNums ((generate_content_pdf sampleEnv
        [sampleQ "DS01000001" "DS" "01", sampleQ "DS02000001" "DS" "02"]).getD []) =
      List.range' 1 [sampleQ "DS01000001" "DS" "01",
        sampleQ "DS02000001" "DS" "02"].length :=
  items_numbered_one_to_N sampleEnv _ _ (by rfl)

theorem choiceLetters_append (a b : List Block) :
    choiceLetters (a ++ b) = choiceLetters a ++ choiceLetters b := by
  simp [choiceLetters]

theorem choiceLetters_cons (b : Block) (l : List Block) :
    choiceLetters (b :: l) =
      (match b with
        | Block.choicePara c _ => [c]
        | _ => []) ++ choiceLetters l := by
  cases b <;> rfl

theorem choiceLetters_choiceBlock (c : Char) (v : Option String) :
    choiceLetters (choiceBlock c v) = if truthy v then [c] else [] := by
  cases v with
  | none => rfl
  | some s =>
    simp only [choiceBlock, truthy]
    by_cases h : s = ""
    · rw [if_pos h, if_neg (by simp [h])]
      rfl
    · rw [if_neg h, if_pos (by simp [h])]
      rfl

theorem choiceLetters_choiceBlocks (q : Question) :
    choiceLetters (choiceBlocks q) =
      ((if truthy q.option_a then ['A'] else []) ++
        ((if truthy q.option_b then ['B'] else []) ++
          ((if truthy q.option_c then ['C'] else []) ++
            (if truthy q.option_d then ['D'] else [])))) := by
  rw [choiceBlocks, choiceLetters_append, choiceLetters_append,
    choiceLetters_append, choiceLetters_choiceBlock,
    choiceLetters_choiceBlock, choiceLetters_choiceBlock,
    choiceLetters_choiceBlock]
  simp [List.append_assoc]

theorem choiceLetters_imgPart (env : Env) (p : Option String) :
    choiceLetters
      (match safe_image env p with
        | some b => [Block.spacer 6, b]
        | none => []) = [] := by
  cases h : safe_image env p with
  | none => rfl
  | some b => obtain ⟨s, rfl⟩ := safe_image_shape env p b h; rfl

theorem choiceLetters_itemBlocks (env : Env) (n : Nat) (q : Question) :
    choiceLetters (itemBlocks env n q) =
      if q.question_type = "single_choice" then
        choiceLetters (choiceBlocks q)
      else [] := by
  rw [itemBlocks, choiceLetters_cons, choiceLetters_append,
    choiceLetters_append, choiceLetters_imgPart]
  by_cases hc : q.question_type = "single_choice"
  · simp [hc, choiceLetters]
  · simp [hc, choiceLetters]

theorem mem_ite_singleton {α : Type} {c l : α} {P : Prop} [Decidable P] :
    c ∈ (if P then [l] else ([] : List α)) ↔ P ∧ c = l := by
  split
  · simp [*]
  · simp [*]

theorem imagePaths_append (a b : List Block) :
    imagePaths (a ++ b) = imagePaths a ++ imagePaths b := by
  simp [imagePaths]

theorem imagePaths_cons (b : Block) (l : List Block) :
    imagePaths (b :: l) =
      (match b with
        | Block.image p => [p]
        | _ => []) ++ imagePaths l := by
  cases b <;> rfl

theorem imagePaths_choiceBlock (c : Char) (v : Option String) :
    imagePaths (choiceBlock c v) = [] := by
  cases v with
  | none => rfl
  | some s =>
    simp only [choiceBlock]
    split
    · rfl
    · rfl

theorem imagePaths_choiceBlocks (q : Question) :
    imagePaths (choiceBlocks q) = [] := by
  rw [choiceBlocks, imagePaths_append, imagePaths_append, imagePaths_append,
    imagePaths_choiceBlock, imagePaths_choiceBlock, imagePaths_choiceBlock,
    imagePaths_choiceBlock]
  rfl

theorem ite_singleton_sublist {α : Type} {P : Prop} [Decidable P] (l : α) :
    (if P then [l] else ([] : List α)).Sublist [l] := by
  split
  · exact List.Sublist.refl _
  · exact List.nil_sublist _

theorem mem_choiceLetters_of_mem {c : Char} {t : String} {l : List Block}
    (h : Block.choicePara c t ∈ l) : c ∈ choiceLetters l := by
  induction l with
  | nil => cases h
  | cons b bs ih =>
    rcases List.mem_cons.1 h with hb | h'
    · rw [← hb, choiceLetters_cons]
      simp
    · rw [choiceLetters_cons]
      exact List.mem_append_right _ (ih h')

theorem mem_imagePaths_of_mem {p : String} {l : List Block}
    (h : Block.image p ∈ l) : p ∈ imagePaths l := by
  induction l with
  | nil => cases h
  | cons b bs ih =>
    rcases List.mem_cons.1 h with hb | h'
    · rw [← hb, imagePaths_cons]
      simp
    · rw [imagePaths_cons]
      exact List.mem_append_right _ (ih h')

theorem safe_image_none_of_unresolved (env : Env) (q : Question)
    (h : ∀ p, q.image_path = some p → p = "" ∨ env.resolves p = false) :
    safe_image env q.image_path = none := by
  cases hp : q.image_path with
  | none => rfl
  | some p =>
    rcases h p hp with h1 | h1
    · simp [safe_image, h1]
    · simp only [safe_image]
      by_cases h2 : p = ""
      · rw [if_pos h2]
      · rw [if_neg h2, if_neg (by simp [h1])]

theorem imagePaths_itemBlocks_no_img (env : Env) (n : Nat) (q : Question)
    (h : safe_image env q.image_path = none) :
    imagePaths (itemBlocks env n q) = [] := by
  rw [itemBlocks, imagePaths_cons, imagePaths_append, imagePaths_append, h]
  by_cases hc : q.question_type = "single_choice"
  · rw [if_pos hc, imagePaths_choiceBlocks]
    rfl
  · rw [if_neg hc]
    rfl

/-- Claim C8: for every record rendered in the items pass — for a
`single_choice` record with all four option columns empty, no choice-letter
block is emitted; the choice letters that are emitted form a subsequence of
the fixed order A, B, C, D, a letter appearing exactly when its option column
is truthy; and for a missing or unresolvable image reference no image block
is emitted and nothing fails, the numbered body rendering as usual. -/
theorem record_blocks_degrade_gracefully :
    ∀ (env : Env) (n : Nat) (q : Question),
      (q.question_type = "single_choice" →
        truthy q.option_a = false → truthy q.option_b = false →
        truthy q.option_c = false → truthy q.option_d = false →
        ∀ (c : Char) (t : String), Block.choicePara c t ∉ itemBlocks env n q) ∧
      (q.question_type = "single_choice" →
        (choiceLetters (itemBlocks env n q)).Sublist ['A', 'B', 'C', 'D'] ∧
        (∀ c : Char, c ∈ choiceLetters (itemBlocks env n q) ↔
          truthy (optField q c) = true)) ∧
      ((∀ p, q.image_path = some p → p = "" ∨ env.resolves p = false) →
        (∀ p, Block.image p ∉ itemBlocks env n q) ∧
        Block.itemPara n (brText q.question_text) ∈ itemBlocks env n q) := by
  intro env n q
  refine ⟨?_, ?_, ?_⟩
  · intro hc ha hb hcc hd c t hmem
    have hin := mem_choiceLetters_of_mem hmem
    rw [choiceLetters_itemBlocks, if_pos hc, choiceLetters_choiceBlocks] at hin
    simp [ha, hb, hcc, hd] at hin
  · intro hc
    constructor
    · rw [choiceLetters_itemBlocks, if_pos hc, choiceLetters_choiceBlocks]
      have habcd : (['A', 'B', 'C', 'D'] : List Char) =
          ['A'] ++ (['B'] ++ (['C'] ++ ['D'])) := rfl
      rw [habcd]
      exact List.Sublist.append (ite_singleton_sublist _)
        (List.Sublist.append (ite_singleton_sublist _)
          (List.Sublist.append (ite_singleton_sublist _)
            (ite_singleton_sublist _)))
    · intro c
      rw [choiceLetters_itemBlocks, if_pos hc, choiceLetters_choiceBlocks]
      simp only [List.mem_append, mem_ite_singleton]
      by_cases h1 : c = 'A'
      · subst h1; simp [optField]
      · by_cases h2 : c = 'B'
        · subst h2; simp [optField]
        · by_cases h3 : c = 'C'
          · subst h3; simp [optField, h2]
          · by_cases h4 : c = 'D'
            · subst h4; simp [optField, h2, h3]
            · simp [optField, h1, h2, h3, h4, truthy]
  · intro himg
    have hsafe := safe_image_none_of_unresolved env q himg
    constructor
    · intro p hmem
      have hin := mem_imagePaths_of_mem hmem
      rw [imagePaths_itemBlocks_no_img env n q hsafe] at hin
      cases hin
    · rw [itemBlocks]
      exact List.mem_cons_self _ _

/-- Concrete instance of C8: a `single_choice` record with empty options and
no image emits neither choice-letter nor image blocks, yet its numbered body
is present. -/
theorem record_blocks_degrade_gracefully_witness :
    (∀ (c : Char) (t : String), Block.choicePara c t ∉
      itemBlocks sampleEnv 1
        { sampleQ "DS01000001" "DS" "01" with question_type := "single_choice" }) ∧
    (∀ p, Block.image p ∉
      itemBlocks sampleEnv 1
        { sampleQ "DS01000001" "DS" "01" with question_type := "single_choice" }) ∧
    Block.itemPara 1 (brText (sampleQ "DS01000001" "DS" "01").question_text) ∈
      itemBlocks sampleEnv 1
        { sampleQ "DS01000001" "DS" "01" with question_type := "single_choice" } :=
  ⟨(record_blocks_degrade_gracefully sampleEnv 1 _).1 rfl rfl rfl rfl rfl,
   ((record_blocks_degrade_gracefully sampleEnv 1 _).2.2
      (fun p hp => by cases hp)).1,
   ((record_blocks_degrade_gracefully sampleEnv 1 _).2.2
      (fun p hp => by cases hp)).2⟩


theorem groupRunsAux_ne_nil_res {α β : Type} (key : α → β) [DecidableEq β] :
    ∀ (l : List α) (k : β) (acc : List α), groupRunsAux key k acc l ≠ [] := by
  intro l
  induction l with
  | nil => intro k acc h; cases h
  | cons a as ih =>
    intro k acc
    rw [groupRunsAux]
    split
    · exact ih k (a :: acc)
    · intro h; cases h

theorem chaptersOutline_spec (sc : String) :
    ∀ (groups : List (String × List Question)) (cur : Nat)
      (res : List OutlineTree × Nat),
      chaptersOutline sc cur groups = some res →
      res.1.map (fun t => t.page) = List.range' cur res.1.length ∧
      res.2 = cur + res.1.length ∧
      (groups ≠ [] → ∃ c cs, res.1 = c :: cs ∧ c.page = cur) := by
  intro groups
  induction groups with
  | nil =>
    intro cur res h
    rw [chaptersOutline] at h
    obtain rfl := (Option.some_inj.mp h).symm
    exact ⟨rfl, rfl, fun hne => absurd rfl hne⟩
  | cons g rest ih =>
    intro cur res h
    obtain ⟨ch, qs⟩ := g
    rw [chaptersOutline] at h
    cases hcn : chapterName sc ch with
    | none => rw [hcn] at h; cases h
    | some name =>
      rw [hcn] at h
      simp only [Option.pure_def, Option.bind_eq_bind, Option.some_bind] at h
      cases hrec : chaptersOutline sc (cur + 1) rest with
      | none => rw [hrec] at h; cases h
      | some ts =>
        rw [hrec] at h
        simp only [Option.some_bind] at h
        obtain rfl := (Option.some_inj.mp h).symm
        obtain ⟨hmap, h2, -⟩ := ih (cur + 1) ts hrec
        refine ⟨?_, ?_, ?_⟩
        · simp only [List.map_cons, List.length_cons, List.range'_succ]
          rw [hmap]
        · simp only [List.length_cons]
          omega
        · intro _
          exact ⟨_, _, rfl, rfl⟩

theorem subjectsOutline_spec :
    ∀ (groups : List (String × List Question)) (cur : Nat)
      (res : List OutlineTree × Nat),
      (∀ g ∈ groups, g.2 ≠ []) →
      subjectsOutline cur groups = some res →
      (res.1.map (fun s => s.children.map (fun t => t.page))).flatten =
        List.range' cur ((res.1.map (fun s => s.children.length)).sum) ∧
      res.2 = cur + (res.1.map (fun s => s.children.length)).sum ∧
      (∀ s ∈ res.1, ∃ c cs, s.children = c :: cs ∧ s.page = c.page) := by
  intro groups
  induction groups with
  | nil =>
    intro cur res _ h
    rw [subjectsOutline] at h
    obtain rfl := (Option.some_inj.mp h).symm
    exact ⟨rfl, rfl, fun s hs => absurd hs (List.not_mem_nil s)⟩
  | cons g rest ih =>
    intro cur res hne h
    obtain ⟨sc, qs⟩ := g
    rw [subjectsOutline] at h
    cases hsn : subjectName sc with
    | none => rw [hsn] at h; cases h
    | some name =>
      rw [hsn] at h
      simp only [Option.pure_def, Option.bind_eq_bind, Option.some_bind] at h
      cases hch : chaptersOutline sc cur (groupRuns (fun q => q.chapter_num) qs) with
      | none => rw [hch] at h; cases h
      | some chs =>
        rw [hch] at h
        simp only [Option.some_bind] at h
        cases hrec : subjectsOutline chs.2 rest with
        | none => rw [hrec] at h; cases h
        | some ts =>
          rw [hrec] at h
          simp only [Option.some_bind] at h
          obtain rfl := (Option.some_inj.mp h).symm
          obtain ⟨hcmap, hc2, hcfirst⟩ := chaptersOutline_spec sc _ cur chs hch
          have hqs : qs ≠ [] := hne (sc, qs) (List.mem_cons_self _ _)
          have hgr : groupRuns (fun q : Question => q.chapter_num) qs ≠ [] := by
            cases qs with
            | nil => exact absurd rfl hqs
            | cons a as => exact groupRunsAux_ne_nil_res _ as _ [a]
          obtain ⟨c0, cs0, hchs, hc0page⟩ := hcfirst hgr
          rw [hc2] at hrec
          obtain ⟨hrmap, hr2, hrfirst⟩ :=
            ih (cur + chs.1.length) ts
              (fun g hg => hne g (List.mem_cons_of_mem _ hg)) hrec
          refine ⟨?_, ?_, ?_⟩
          · simp only [List.map_cons, List.flatten_cons, List.sum_cons]
            rw [hcmap, hrmap, range'_split]
          · simp only [List.map_cons, List.sum_cons]
            omega
          · intro s hs
            rcases List.mem_cons.1 hs with hs' | hs'
            · rw [hs']
              exact ⟨c0, cs0, hchs, hc0page.symm⟩
            · exact hrfirst s hs'

/-- Claim C2: every outline the bookmark stage writes consists of an `习题`
node at page 1 (the first content page after the one-page cover, pages
0-based) whose grandchild chapter nodes are anchored to consecutive pages
`1, 2, 3, …` — exactly one page per chapter run, in sequence order — with
each subject node anchored to the page of its first chapter, and a final
`答案解析` node anchored to the artifact's page count minus one. -/
theorem bookmarks_fixed_page_layout :
    ∀ (numPages : Nat) (qs : List Question) (outline : List OutlineTree),
      add_bookmarks numPages qs = some outline →
      ∃ subjects : List OutlineTree,
        outline = [OutlineTree.mk "习题" 1 subjects,
          OutlineTree.mk "答案解析" (numPages - 1) []] ∧
        (subjects.map (fun s => s.children.map (fun t => t.page))).flatten =
          List.range' 1 ((subjects.map (fun s => s.children.length)).sum) ∧
        (∀ s ∈ subjects, ∃ c cs, s.children = c :: cs ∧ s.page = c.page) := by
  intro numPages qs outline h
  rw [add_bookmarks] at h
  cases hsp : subjectsOutline 1 (groupRuns (fun q => q.subject_code) qs) with
  | none => rw [hsp] at h; cases h
  | some subjects =>
    rw [hsp] at h
    simp only [Option.pure_def, Option.bind_eq_bind, Option.some_bind] at h
    obtain rfl := (Option.some_inj.mp h).symm
    obtain ⟨hmap, -, hfirst⟩ :=
      subjectsOutline_spec _ 1 subjects
        (groupRuns_ne_nil (fun q : Question => q.subject_code) qs) hsp
    exact ⟨subjects.1, rfl, hmap, hfirst⟩

/-- Concrete instance of C2: three records over two subjects and three
chapters put the chapters at pages 1, 2, 3 and the answers node at page 4 of
a five-page artifact. -/
theorem bookmarks_fixed_page_layout_witness :
    ∃ subjects : List OutlineTree,
      (add_bookmarks 5 [sampleQ "DS01000001" "DS" "01",
        sampleQ "DS02000001" "DS" "02", sampleQ "OS01000001" "OS" "01"]).getD [] =
        [OutlineTree.mk "习题" 1 subjects,
          OutlineTree.mk "答案解析" (5 - 1) []] ∧
      (subjects.map (fun s => s.children.map (fun t => t.page))).flatten =
        List.range' 1 ((subjects.map (fun s => s.children.length)).sum) ∧
      (∀ s ∈ subjects, ∃ c cs, s.children = c :: cs ∧ s.page = c.page) :=
  bookmarks_fixed_page_layout 5
    [sampleQ "DS01000001" "DS" "01", sampleQ "DS02000001" "DS" "02",
      sampleQ "OS01000001" "OS" "01"] _ (by rfl)

unseal List.merge List.mergeSort in
/-- Claim C4 is false on the code: with the font present and an empty
catalog, `main` prints `无已发布题目` and returns normally — the process
exits with status 0, not non-zero as claimed for this core-failure case. -/
theorem empty_catalog_exits_zero :
    (run_script sampleEnv).1 = 0 ∧
    (run_script sampleEnv).2 = ["无已发布题目"] ∧
    sampleEnv.rows = [] ∧ sampleEnv.fontExists = true := ⟨rfl, rfl, rfl, rfl⟩

/-- Claim C4, amended: a missing font resource terminates the process with
status 1 (the module-level font registration raises an uncaught
`FileNotFoundError` before `main` runs), and an unreadable intermediate
artifact terminates it with status 1 (uncaught exception in `add_bookmarks`);
but an empty catalog terminates with status 0, printing only the
`无已发布题目` warning. -/
theorem script_exit_statuses :
    ∀ env : Env,
      (env.fontExists = false → run_script env = (1, ["FileNotFoundError: 字体文件未找到"])) ∧
      (env.fontExists = true → fetch_published_questions env.rows = [] →
        run_script env = (0, ["无已发布题目"])) ∧
      (env.fontExists = true → env.artifactReadable = false →
        fetch_published_questions env.rows ≠ [] →
        generate_content_pdf env (fetch_published_questions env.rows) ≠ none →
        run_script env = (1, ["ArtifactUnavailable"])) := by
  intro env
  refine ⟨?_, ?_, ?_⟩
  · intro h
    rw [run_script, if_pos h]
  · intro hf he
    rw [run_script, if_neg (by simp [hf])]
    simp [he]
  · intro hf ha hne hgen
    rw [run_script, if_neg (by simp [hf])]
    rw [if_neg (by simpa using hne)]
    cases hg : generate_content_pdf env (fetch_published_questions env.rows) with
    | none => exact absurd hg hgen
    | some story =>
      simp only [hg]
      rw [if_pos (by simp [ha])]

unseal List.merge List.mergeSort in
/-- Concrete instances of the amended C4 claim: a missing font exits 1; an
unreadable artifact exits 1; an empty catalog exits 0. -/
theorem script_exit_statuses_witness :
    run_script { sampleEnv with fontExists := false } =
      (1, ["FileNotFoundError: 字体文件未找到"]) ∧
    run_script sampleEnvBadArtifact = (1, ["ArtifactUnavailable"]) ∧
    run_script sampleEnv = (0, ["无已发布题目"]) :=
  ⟨(script_exit_statuses _).1 rfl,
   (script_exit_statuses _).2.2 rfl rfl (by decide)
     (fun h => by
       rw [show generate_content_pdf sampleEnvBadArtifact
           (fetch_published_questions sampleEnvBadArtifact.rows) =
           some ((generate_content_pdf sampleEnvBadArtifact
             (fetch_published_questions sampleEnvBadArtifact.rows)).getD [])
         from rfl] at h
       cases h),
   (script_exit_statuses _).2.1 rfl rfl⟩

end OpenCS408
